import Mathlib

/-!
Verification of the statistics and clustering engine of `codesiz` (main.go).
Numeric data (Go `float64` over integer line counts) is embedded as exact
rationals `ℚ`; `math.Sqrt` is embedded as `Real.sqrt`.  Go slices are
embedded as Lean lists; in-place element updates become `List.set`, and
reads `List.getD` (all source indexing is in bounds under the stated
preconditions, so the default value is never read there).
-/

namespace Codesiz

/-- Embeds Go `math.Round`: round half away from zero. -/
def goRound (q : ℚ) : ℚ := if 0 ≤ q then (⌊q + 1/2⌋ : ℤ) else (⌈q - 1/2⌉ : ℤ)

/-- Stable insertion of `x` into an already sorted list: `x` is placed before
the first element `y` with `less x y`, hence after all elements equal to it.
This is the insertion step of Go's insertion sort (`sort.insertionSort`),
which moves the new element left only while `less` holds strictly. -/
def goOrderedInsert (less : α → α → Bool) (x : α) : List α → List α
  | [] => [x]
  | y :: ys => if less x y then x :: y :: ys else y :: goOrderedInsert less x ys

/-- Embeds Go `sort.Slice` as executed on slices shorter than 12 elements
(the only case the source uses it on: the 3-element `idxs` of
`labelClusters`): insertion sort with the given `less`, which is stable. -/
def goSortSlice (less : α → α → Bool) (l : List α) : List α :=
  l.foldl (fun acc x => goOrderedInsert less x acc) []

/-- Accumulator state of the deviation loop of `computeStats`:
`(varianceHighSum, countHigh, varianceLowSum, countLow)`. -/
structure DevAcc where
  varianceHighSum : ℚ
  countHigh : ℕ
  varianceLowSum : ℚ
  countLow : ℕ
deriving Repr, DecidableEq

/-- One step of the deviation loop of `computeStats` (main.go lines 80-89):
`diff := s - avg; if diff >= 0` accumulate into the high side, else low. -/
def devStep (avg : ℚ) (st : DevAcc) (s : ℤ) : DevAcc :=
  let diff : ℚ := (s : ℚ) - avg
  if 0 ≤ diff then
    { st with varianceHighSum := st.varianceHighSum + diff * diff,
              countHigh := st.countHigh + 1 }
  else
    { st with varianceLowSum := st.varianceLowSum + diff * diff,
              countLow := st.countLow + 1 }

/-- The pre-`Sqrt` content of a `computeStats` run: average, median and the
variance accumulators (the source takes `math.Sqrt` of
`varianceHighSum/countHigh` at the very end; splitting there keeps this
part computable over `ℚ`). -/
structure StatsAux where
  average : ℚ
  median : ℚ
  dev : DevAcc
deriving Repr, DecidableEq

/-- Statement-by-statement embedding of Go `computeStats` (main.go lines
53-97), threading the caller-visible slice `sizes` through the body: the
second component is the contents of the caller's slice when the function
returns.  The body only reads `sizes`; the sort for the median is applied
to `sorted`, a fresh copy (`make` + `copy`), embedded as
`List.insertionSort` (for integer values every Go sort produces this same
ascending permutation). -/
def computeStatsProc (sizes : List ℤ) : StatsAux × List ℤ :=
  if sizes.isEmpty then (⟨0, 0, ⟨0, 0, 0, 0⟩⟩, sizes)
  else
    let sum : ℤ := sizes.foldl (· + ·) 0
    let avg : ℚ := (sum : ℚ) / (sizes.length : ℚ)
    let sorted := sizes.insertionSort (· ≤ ·)
    let n := sorted.length
    let median : ℚ :=
      if n % 2 = 0 then ((sorted.getD (n / 2 - 1) 0 : ℚ) + (sorted.getD (n / 2) 0 : ℚ)) / 2
      else (sorted.getD (n / 2) 0 : ℚ)
    let acc := sizes.foldl (devStep avg) ⟨0, 0, 0, 0⟩
    (⟨avg, median, acc⟩, sizes)

/-- Full embedding of Go `computeStats`: the four results
`(avg, median, stdHigh, stdLow)`; `stdHigh`/`stdLow` stay `0` when the
corresponding partition is empty, otherwise they are
`Sqrt(varianceSum/count)`. -/
noncomputable def computeStats (sizes : List ℤ) : ℚ × ℚ × ℝ × ℝ :=
  let a := (computeStatsProc sizes).1
  (a.average, a.median,
    if 0 < a.dev.countHigh then Real.sqrt ((a.dev.varianceHighSum : ℝ) / (a.dev.countHigh : ℝ)) else 0,
    if 0 < a.dev.countLow then Real.sqrt ((a.dev.varianceLowSum : ℝ) / (a.dev.countLow : ℝ)) else 0)

/-- Absolute distance of sample `x` to centroid `j` (Go `math.Abs(x - centroids[j])`). -/
def dist (x : ℚ) (cs : List ℚ) (j : ℕ) : ℚ := |x - cs.getD j 0|

/-- Inner assignment scan of `runKMeans` (main.go lines 111-119): start with
`best := 0`, `bestDist := |x - centroids[0]|`, then for `j := 1; j < k; j++`
replace only on a strictly smaller distance. -/
def assignOne (cs : List ℚ) (k : ℕ) (x : ℚ) : ℕ :=
  ((List.range' 1 (k - 1)).foldl
    (fun bd j =>
      let d := |x - cs.getD j 0|
      if d < bd.2 then (j, d) else bd)
    (0, |x - cs.getD 0 0|)).1

/-- One full assignment pass: the source loop writes `assignments[i] := best`
for every `i` (reading only `data` and `centroids`), so the array after the
pass is the pointwise `assignOne`. -/
def assignAll (data cs : List ℚ) (k : ℕ) : List ℕ :=
  data.map (assignOne cs k)

/-- Sum/count accumulation of the centroid-update loop (main.go lines
125-130): `newCentroids[cluster] += data[i]; counts[cluster]++` over
`zip data assignments`, on a vector of `(sum, count)` pairs initialised to
`(0, 0)`. -/
def accumCentroids (data : List ℚ) (as : List ℕ) (k : ℕ) : List (ℚ × ℕ) :=
  (data.zip as).foldl
    (fun acc p => acc.set p.2 ((acc.getD p.2 (0, 0)).1 + p.1, (acc.getD p.2 (0, 0)).2 + 1))
    (List.replicate k (0, 0))

/-- Centroid update of `runKMeans` (main.go lines 125-137): each centroid
becomes the mean of its assigned samples; a cluster with zero assigned
samples keeps its previous centroid. -/
def updateCentroids (data cs : List ℚ) (as : List ℕ) (k : ℕ) : List ℚ :=
  let acc := accumCentroids data as k
  (List.range k).map fun j =>
    let p := acc.getD j (0, 0)
    if 0 < p.2 then p.1 / (p.2 : ℚ) else cs.getD j 0

/-- The refinement loop of `runKMeans` (main.go lines 108-142), with the
`for iter := 0; iter < 10; iter++` counter embedded as fuel.  Each pass
recomputes all assignments (setting `changed` when any differs), then the
centroids, and breaks when `changed` is false.  The third component counts
the iterations actually executed. -/
def kmeansLoop (data : List ℚ) (k : ℕ) : ℕ → List ℚ → List ℕ → List ℕ × List ℚ × ℕ
  | 0, cs, as => (as, cs, 0)
  | fuel + 1, cs, as =>
    let as' := assignAll data cs k
    let changed := as' ≠ as
    let cs' := updateCentroids data cs as' k
    if changed then
      let r := kmeansLoop data k fuel cs' as'
      (r.1, r.2.1, r.2.2 + 1)
    else (as', cs', 1)

/-- Deterministic centroid initialisation of `runKMeans` (main.go lines
102-106): minimum, element at the middle index and maximum of an
ascending-sorted copy of the data. -/
def kmeansInit (data : List ℚ) : List ℚ :=
  let n := data.length
  let sortedData := data.insertionSort (· ≤ ·)
  [sortedData.getD 0 0, sortedData.getD (n / 2) 0, sortedData.getD (n - 1) 0]

/-- Embedding of Go `runKMeans` (main.go lines 100-144), together with the
number of loop iterations executed: `(assignments, centroids, iterations)`. -/
def runKMeansFull (data : List ℚ) (k : ℕ) : List ℕ × List ℚ × ℕ :=
  kmeansLoop data k 10 (kmeansInit data) (List.replicate data.length 0)

/-- Go `runKMeans`: final `(assignments, centroids)`. -/
def runKMeans (data : List ℚ) (k : ℕ) : List ℕ × List ℚ :=
  ((runKMeansFull data k).1, (runKMeansFull data k).2.1)

/-- Per-cluster summary record (main.go lines 146-153). -/
structure ClusterSummary where
  cluster : ℕ
  count : ℕ
  sum : ℚ
  min : ℚ
  max : ℚ
  avg : ℚ
deriving Repr, DecidableEq

/-- Initial summary of cluster `j` (main.go lines 157-162): `Min` starts at
the sentinel `1e9`, `Max` at `-1`, everything else at zero. -/
def initSummary (j : ℕ) : ClusterSummary :=
  ⟨j, 0, 0, 10 ^ 9, -1, 0⟩

/-- One accumulation step of `computeClusterSummaries` (main.go lines
163-173) on the summary of the cluster a sample is assigned to. -/
def stepSummary (s : ClusterSummary) (x : ℚ) : ClusterSummary :=
  { s with
    count := s.count + 1
    sum := s.sum + x
    min := if x < s.min then x else s.min
    max := if s.max < x then x else s.max }

/-- Embedding of Go `computeClusterSummaries` (main.go lines 156-180):
initialise `k` summaries, accumulate over `zip data assignments`, then set
each `Avg` to `Sum/Count` when `Count > 0`. -/
def computeClusterSummaries (data : List ℚ) (as : List ℕ) (k : ℕ) : List ClusterSummary :=
  let init := (List.range k).map initSummary
  let folded := (data.zip as).foldl
    (fun acc p => acc.set p.2 (stepSummary (acc.getD p.2 (initSummary 0)) p.1)) init
  folded.map fun s => if 0 < s.count then { s with avg := s.sum / (s.count : ℚ) } else s

/-- Embedding of Go `labelClusters` (main.go lines 183-200) as an
association list: pair each cluster id with its average, sort by ascending
average with `sort.Slice` (insertion sort for 3 elements, stable), and
label the sorted ids `Small`, `Medium`, `Large` in order. -/
def labelClusters (summaries : List ClusterSummary) : List (ℕ × String) :=
  let k := summaries.length
  let idxs := (List.range k).map fun j => (j, (summaries.getD j (initSummary 0)).avg)
  let sorted := goSortSlice (fun p q => decide (p.2 < q.2)) idxs
  [((sorted.getD 0 (0, 0)).1, "Small"),
   ((sorted.getD 1 (0, 0)).1, "Medium"),
   ((sorted.getD 2 (0, 0)).1, "Large")]

/-- One entry of the `clusterResults` slice built in `main` (main.go lines
346-391). -/
structure ClusterResult where
  label : String
  count : ℕ
  percentage : ℚ
  avg : ℚ
  range : ℚ × ℚ
deriving Repr, DecidableEq

/-- Embedding of the cluster-report construction in `main` (main.go lines
354-391): run k-means with `k = 3` on the data, summarise, label, and for
each cluster id emit label, count, `100 * count / n` percentage, rounded
average and rounded `[min, max]` range.  `main` only reaches this code
when there are at least 3 files. -/
def clusterResults (data : List ℚ) : List ClusterResult :=
  let k := 3
  let n := data.length
  let assignments := (runKMeans data k).1
  let summaries := computeClusterSummaries data assignments k
  let labels := labelClusters summaries
  (List.range k).map fun j =>
    let s := summaries.getD j (initSummary 0)
    let avgVal : ℚ := if 0 < s.count then s.sum / (s.count : ℚ) else 0
    { label := ((labels.lookup j).getD "")
      count := s.count
      percentage := 100 * (s.count : ℚ) / (n : ℚ)
      avg := goRound avgVal
      range := (goRound s.min, goRound s.max) }

/-! ## Helper lemmas -/

/-- On a non-empty input, `computeStatsProc` takes the `else` branch of its
guard; this spells out the resulting record. -/
theorem computeStatsProc_nonempty (sizes : List ℤ) (h : sizes.isEmpty = false) :
    computeStatsProc sizes =
      (⟨((sizes.foldl (· + ·) 0 : ℤ) : ℚ) / (sizes.length : ℚ),
        (if (sizes.insertionSort (· ≤ ·)).length % 2 = 0 then
           (((sizes.insertionSort (· ≤ ·)).getD ((sizes.insertionSort (· ≤ ·)).length / 2 - 1) 0 : ℚ) +
            ((sizes.insertionSort (· ≤ ·)).getD ((sizes.insertionSort (· ≤ ·)).length / 2) 0 : ℚ)) / 2
         else ((sizes.insertionSort (· ≤ ·)).getD ((sizes.insertionSort (· ≤ ·)).length / 2) 0 : ℚ)),
        sizes.foldl (devStep (((sizes.foldl (· + ·) 0 : ℤ) : ℚ) / (sizes.length : ℚ))) ⟨0, 0, 0, 0⟩⟩,
       sizes) := by
  unfold computeStatsProc
  rw [if_neg (by simp [h])]

/-- The deviation fold of `computeStats` accumulates, onto any starting
state, the squared deviations and counts of the high (`avg ≤ s`) and low
(`s < avg`) partitions. -/
theorem devStep_foldl (avg : ℚ) (l : List ℤ) : ∀ st : DevAcc,
    l.foldl (devStep avg) st =
      ⟨st.varianceHighSum +
         ((l.filter fun s : ℤ => decide (avg ≤ (s : ℚ))).map fun s : ℤ => ((s : ℚ) - avg) * ((s : ℚ) - avg)).sum,
       st.countHigh + (l.filter fun s : ℤ => decide (avg ≤ (s : ℚ))).length,
       st.varianceLowSum +
         ((l.filter fun s : ℤ => decide ((s : ℚ) < avg)).map fun s : ℤ => ((s : ℚ) - avg) * ((s : ℚ) - avg)).sum,
       st.countLow + (l.filter fun s : ℤ => decide ((s : ℚ) < avg)).length⟩ := by
  induction l with
  | nil => intro st; simp
  | cons s t ih =>
    intro st
    rw [List.foldl_cons, ih]
    by_cases hc : 0 ≤ (s : ℚ) - avg
    · have h1 : avg ≤ (s : ℚ) := by linarith
      have h2 : ¬ ((s : ℚ) < avg) := by linarith
      simp only [devStep, if_pos hc, List.filter_cons, decide_eq_true_eq, h1, h2,
        if_true, if_false, List.map_cons, List.sum_cons, List.length_cons, DevAcc.mk.injEq]
      refine ⟨by ring1, by ring1, trivial, trivial⟩
    · have h1 : ¬ (avg ≤ (s : ℚ)) := fun h => hc (by linarith)
      have h2 : (s : ℚ) < avg := by
        have := not_le.mp h1; linarith
      simp only [devStep, if_neg hc, List.filter_cons, decide_eq_true_eq, h1, h2,
        if_true, if_false, List.map_cons, List.sum_cons, List.length_cons, DevAcc.mk.injEq]
      refine ⟨trivial, trivial, by ring1, by ring1⟩

/-! ## Claims about `computeStats` -/

/-- C4: `computeStats` applied to the empty sequence succeeds and returns
all-zero statistics: average 0, median 0, stdDevHigh 0, stdDevLow 0. -/
theorem computeStats_empty_all_zero : computeStats ([] : List ℤ) = (0, 0, 0, 0) := rfl

/-- C9: `computeStats` has no effect on the caller's sequence: the
statement-level embedding `computeStatsProc`, which threads the
caller-visible slice through the body (the median sort acts on a fresh
copy), returns that slice unchanged for every input. -/
theorem computeStats_no_mutation (sizes : List ℤ) : (computeStatsProc sizes).2 = sizes := by
  unfold computeStatsProc
  split <;> rfl

/-- C6: for every non-empty integer sequence the average is the exact
arithmetic mean and the median is read off an ascending-sorted copy
(middle element for odd length, mean of the two middle elements for even
length); moreover `median [10,20,30] = 20`, `median [10,20,30,40] = 25`,
and `computeStats [1,2,3,4,5]` has median 3 and average 3. -/
theorem computeStats_average_median :
    (∀ sizes : List ℤ, sizes ≠ [] →
      (computeStats sizes).1 = (sizes.sum : ℚ) / (sizes.length : ℚ) ∧
      ∃ l : List ℤ, l.Perm sizes ∧ l.Sorted (· ≤ ·) ∧
        (computeStats sizes).2.1 =
          (if l.length % 2 = 0
           then ((l.getD (l.length / 2 - 1) 0 : ℚ) + (l.getD (l.length / 2) 0 : ℚ)) / 2
           else (l.getD (l.length / 2) 0 : ℚ))) ∧
    (computeStats [10, 20, 30]).2.1 = 20 ∧
    (computeStats [10, 20, 30, 40]).2.1 = 25 ∧
    (computeStats [1, 2, 3, 4, 5]).2.1 = 3 ∧
    (computeStats [1, 2, 3, 4, 5]).1 = 3 := by
  refine ⟨fun sizes h => ?_, ?_, ?_, ?_, ?_⟩
  · have hne : sizes.isEmpty = false := by simpa [List.isEmpty_iff] using h
    constructor
    · show (computeStatsProc sizes).1.average = _
      rw [computeStatsProc_nonempty sizes hne, List.sum_eq_foldl]
    · refine ⟨sizes.insertionSort (· ≤ ·), List.perm_insertionSort _ _,
        List.sorted_insertionSort _ _, ?_⟩
      show (computeStatsProc sizes).1.median = _
      rw [computeStatsProc_nonempty sizes hne]
  · show (computeStatsProc [10, 20, 30]).1.median = 20
    norm_num [computeStatsProc, List.insertionSort, List.orderedInsert]
  · show (computeStatsProc [10, 20, 30, 40]).1.median = 25
    norm_num [computeStatsProc, List.insertionSort, List.orderedInsert]
  · show (computeStatsProc [1, 2, 3, 4, 5]).1.median = 3
    norm_num [computeStatsProc, List.insertionSort, List.orderedInsert]
  · show (computeStatsProc [1, 2, 3, 4, 5]).1.average = 3
    norm_num [computeStatsProc]

/-- Witness for C6 at the concrete input `[1, 2]`. -/
theorem computeStats_average_median_witness :
    (computeStats [1, 2]).1 = ((([1, 2] : List ℤ).sum : ℚ) / (([1, 2] : List ℤ).length : ℚ)) :=
  (computeStats_average_median.1 [1, 2] (by decide)).1

/-- C5: for every non-empty sequence, `computeStats` splits the values into
the high partition (`value ≥ average`, inclusive) and the low partition
(`value < average`) and returns, for each, the square root of the mean of
squared deviations from the overall average with the partition's own count
as divisor; an empty partition yields exactly 0, and on `[5, 5, 5]` both
standard deviations are 0. -/
theorem computeStats_stddev_partition :
    (∀ sizes : List ℤ, sizes ≠ [] →
      ((computeStats sizes).2.2.1 =
        if sizes.filter (fun s : ℤ => decide ((computeStatsProc sizes).1.average ≤ (s : ℚ))) = []
        then 0
        else Real.sqrt
          (((((sizes.filter fun s : ℤ => decide ((computeStatsProc sizes).1.average ≤ (s : ℚ))).map
               fun s : ℤ => ((s : ℚ) - (computeStatsProc sizes).1.average) ^ 2).sum : ℚ) : ℝ) /
           (((sizes.filter fun s : ℤ => decide ((computeStatsProc sizes).1.average ≤ (s : ℚ))).length : ℕ) : ℝ))) ∧
      ((computeStats sizes).2.2.2 =
        if sizes.filter (fun s : ℤ => decide ((s : ℚ) < (computeStatsProc sizes).1.average)) = []
        then 0
        else Real.sqrt
          (((((sizes.filter fun s : ℤ => decide ((s : ℚ) < (computeStatsProc sizes).1.average)).map
               fun s : ℤ => ((s : ℚ) - (computeStatsProc sizes).1.average) ^ 2).sum : ℚ) : ℝ) /
           (((sizes.filter fun s : ℤ => decide ((s : ℚ) < (computeStatsProc sizes).1.average)).length : ℕ) : ℝ)))) ∧
    (computeStats [5, 5, 5]).2.2.1 = 0 ∧
    (computeStats [5, 5, 5]).2.2.2 = 0 := by
  have hmapsq : ∀ (t : List ℤ) (a : ℚ),
      (t.map fun s : ℤ => ((s : ℚ) - a) * ((s : ℚ) - a)) =
      (t.map fun s : ℤ => ((s : ℚ) - a) ^ 2) := by
    intro t a
    exact List.map_congr_left fun s _ => by ring
  have main : ∀ sizes : List ℤ, sizes ≠ [] →
      ((computeStats sizes).2.2.1 =
        if sizes.filter (fun s : ℤ => decide ((computeStatsProc sizes).1.average ≤ (s : ℚ))) = []
        then 0
        else Real.sqrt
          (((((sizes.filter fun s : ℤ => decide ((computeStatsProc sizes).1.average ≤ (s : ℚ))).map
               fun s : ℤ => ((s : ℚ) - (computeStatsProc sizes).1.average) ^ 2).sum : ℚ) : ℝ) /
           (((sizes.filter fun s : ℤ => decide ((computeStatsProc sizes).1.average ≤ (s : ℚ))).length : ℕ) : ℝ))) ∧
      ((computeStats sizes).2.2.2 =
        if sizes.filter (fun s : ℤ => decide ((s : ℚ) < (computeStatsProc sizes).1.average)) = []
        then 0
        else Real.sqrt
          (((((sizes.filter fun s : ℤ => decide ((s : ℚ) < (computeStatsProc sizes).1.average)).map
               fun s : ℤ => ((s : ℚ) - (computeStatsProc sizes).1.average) ^ 2).sum : ℚ) : ℝ) /
           (((sizes.filter fun s : ℤ => decide ((s : ℚ) < (computeStatsProc sizes).1.average)).length : ℕ) : ℝ))) := by
    intro sizes h
    have hne : sizes.isEmpty = false := by simpa [List.isEmpty_iff] using h
    have hdev : (computeStatsProc sizes).1.dev =
        sizes.foldl (devStep ((computeStatsProc sizes).1.average)) ⟨0, 0, 0, 0⟩ := by
      rw [computeStatsProc_nonempty sizes hne]
    rw [devStep_foldl, hmapsq, hmapsq] at hdev
    constructor
    · show (if 0 < (computeStatsProc sizes).1.dev.countHigh then _ else _) = _
      rw [hdev]
      by_cases hh :
          sizes.filter (fun s : ℤ => decide ((computeStatsProc sizes).1.average ≤ (s : ℚ))) = []
      · rw [if_pos hh]
        simp [hh]
      · rw [if_neg hh]
        have hlen : 0 <
            (sizes.filter fun s : ℤ =>
              decide ((computeStatsProc sizes).1.average ≤ (s : ℚ))).length :=
          List.length_pos.mpr hh
        rw [if_pos (by simpa using hlen)]
        norm_num
    · show (if 0 < (computeStatsProc sizes).1.dev.countLow then _ else _) = _
      rw [hdev]
      by_cases hh :
          sizes.filter (fun s : ℤ => decide ((s : ℚ) < (computeStatsProc sizes).1.average)) = []
      · rw [if_pos hh]
        simp [hh]
      · rw [if_neg hh]
        have hlen : 0 <
            (sizes.filter fun s : ℤ =>
              decide ((s : ℚ) < (computeStatsProc sizes).1.average)).length :=
          List.length_pos.mpr hh
        rw [if_pos (by simpa using hlen)]
        norm_num
  refine ⟨main, ?_, ?_⟩
  · rw [(main [5, 5, 5] (by decide)).1]
    have havg : (computeStatsProc [5, 5, 5]).1.average = 5 := by
      norm_num [computeStatsProc]
    rw [havg]
    norm_num
  · rw [(main [5, 5, 5] (by decide)).2]
    have havg : (computeStatsProc [5, 5, 5]).1.average = 5 := by
      norm_num [computeStatsProc]
    rw [havg]
    norm_num

/-- Witness for C5 at the concrete input `[5, 5, 5]`. -/
theorem computeStats_stddev_partition_witness :
    (computeStats ([5, 5, 5] : List ℤ)).2.2.2 =
      if ([5, 5, 5] : List ℤ).filter (fun s : ℤ => decide ((s : ℚ) < (computeStatsProc ([5, 5, 5] : List ℤ)).1.average)) = []
      then 0
      else Real.sqrt
        (((((([5, 5, 5] : List ℤ).filter fun s : ℤ => decide ((s : ℚ) < (computeStatsProc ([5, 5, 5] : List ℤ)).1.average)).map
             fun s : ℤ => ((s : ℚ) - (computeStatsProc ([5, 5, 5] : List ℤ)).1.average) ^ 2).sum : ℚ) : ℝ) /
         (((([5, 5, 5] : List ℤ).filter fun s : ℤ => decide ((s : ℚ) < (computeStatsProc ([5, 5, 5] : List ℤ)).1.average)).length : ℕ) : ℝ)) :=
  (computeStats_stddev_partition.1 [5, 5, 5] (by decide)).2

/-! ## Helper lemmas for the cluster engine -/

/-- Reading position `j` of a `(range k).map f` vector. -/
theorem getD_map_range {α : Type} (f : ℕ → α) (d : α) (k j : ℕ) (hj : j < k) :
    ((List.range k).map f).getD j d = f j := by
  simp [List.getD_eq_getElem?_getD, List.getElem?_range, hj]

/-- A fold that updates the slot `p.2` of a vector with `upd` applied to the
sample `p.1` acts, at every in-bounds position `j`, like folding `upd` over
the samples assigned to `j`; the length never changes.  This is the shape
shared by the accumulation loops of `runKMeans` and
`computeClusterSummaries`. -/
theorem foldl_set_getD {α : Type} (upd : α → ℚ → α) (d : α) :
    ∀ (ps : List (ℚ × ℕ)) (init : List α),
      ((ps.foldl (fun acc p => acc.set p.2 (upd (acc.getD p.2 d) p.1)) init).length
          = init.length) ∧
      ∀ j : ℕ, j < init.length →
        (ps.foldl (fun acc p => acc.set p.2 (upd (acc.getD p.2 d) p.1)) init).getD j d
          = ((ps.filter fun p => p.2 = j).map Prod.fst).foldl upd (init.getD j d) := by
  intro ps
  induction ps with
  | nil => intro init; exact ⟨rfl, fun j _ => rfl⟩
  | cons p t ih =>
    intro init
    have step :
        (p :: t).foldl (fun acc q => acc.set q.2 (upd (acc.getD q.2 d) q.1)) init
          = t.foldl (fun acc q => acc.set q.2 (upd (acc.getD q.2 d) q.1))
              (init.set p.2 (upd (init.getD p.2 d) p.1)) := rfl
    have := ih (init.set p.2 (upd (init.getD p.2 d) p.1))
    constructor
    · rw [step, this.1, List.length_set]
    · intro j hj
      rw [step, this.2 j (by simpa using hj)]
      by_cases hpj : p.2 = j
      · subst hpj
        have hget : (init.set p.2 (upd (init.getD p.2 d) p.1)).getD p.2 d
            = upd (init.getD p.2 d) p.1 := by
          simp [List.getD_eq_getElem?_getD, List.getElem?_set_self hj]
        rw [hget]
        simp [List.filter_cons]
      · have hget : (init.set p.2 (upd (init.getD p.2 d) p.1)).getD j d = init.getD j d := by
          simp [List.getD_eq_getElem?_getD, List.getElem?_set_ne hpj]
        rw [hget]
        simp [List.filter_cons, hpj]

/-- The sum/count fold of the centroid update. -/
theorem sumCount_foldl : ∀ (l : List ℚ) (s : ℚ) (c : ℕ),
    l.foldl (fun q x => (q.1 + x, q.2 + 1)) (s, c) = (s + l.sum, c + l.length) := by
  intro l
  induction l with
  | nil => intro s c; simp
  | cons x t ih =>
    intro s c
    rw [List.foldl_cons, ih]
    rw [List.sum_cons, List.length_cons, Prod.mk.injEq]
    exact ⟨by ring, by ring⟩

/-- Position `j` of the accumulated `(sums, counts)` vector of the centroid
update holds the sum and the number of the samples assigned to cluster `j`. -/
theorem accumCentroids_getD (data : List ℚ) (as : List ℕ) (k j : ℕ) (hj : j < k) :
    (accumCentroids data as k).getD j (0, 0) =
      (((((data.zip as).filter fun p => p.2 = j).map Prod.fst).sum : ℚ),
       (((data.zip as).filter fun p => p.2 = j).map Prod.fst).length) := by
  have h := (foldl_set_getD (fun q x => (q.1 + x, q.2 + 1)) ((0 : ℚ), (0 : ℕ)) (data.zip as)
    (List.replicate k (0, 0))).2 j (by simpa using hj)
  have hrep : (List.replicate k ((0 : ℚ), (0 : ℕ))).getD j (0, 0) = (0, 0) := by
    simp [List.getD_eq_getElem?_getD, List.getElem?_replicate_of_lt hj]
  unfold accumCentroids
  rw [h, hrep, sumCount_foldl]
  simp

/-- The summary-accumulation fold only grows `count` by the length and `sum`
by the sum of the folded samples, and never touches `cluster`. -/
theorem stepSummary_foldl : ∀ (l : List ℚ) (s : ClusterSummary),
    ((l.foldl stepSummary s).count = s.count + l.length) ∧
    ((l.foldl stepSummary s).sum = s.sum + l.sum) ∧
    ((l.foldl stepSummary s).cluster = s.cluster) := by
  intro l
  induction l with
  | nil => intro s; exact ⟨rfl, by simp, rfl⟩
  | cons x t ih =>
    intro s
    rw [List.foldl_cons]
    refine ⟨?_, ?_, ?_⟩
    · rw [(ih _).1]; simp [stepSummary]; ring
    · rw [(ih _).2.1]; simp [stepSummary]; ring
    · rw [(ih _).2.2]; rfl


/-- Reading an in-bounds position of a mapped list through `getD`. -/
theorem getD_map {α β : Type} (f : α → β) (l : List α) (dα : α) (dβ : β) (j : ℕ)
    (hj : j < l.length) : (l.map f).getD j dβ = f (l.getD j dα) := by
  rw [List.getD_eq_getElem?_getD, List.getElem?_map, List.getElem?_eq_getElem hj,
    List.getD_eq_getElem?_getD, List.getElem?_eq_getElem hj]
  rfl

/-- Position `j` of `computeClusterSummaries`, for in-bounds `j`: the
`count`, `sum`, `cluster` and `avg` fields in terms of the samples assigned
to cluster `j`, and the length of the summary vector. -/
theorem computeClusterSummaries_fields (data : List ℚ) (as : List ℕ) (k j : ℕ) (hj : j < k) :
    (((computeClusterSummaries data as k).getD j (initSummary 0)).count =
        ((data.zip as).filter fun p => p.2 = j).length) ∧
    (((computeClusterSummaries data as k).getD j (initSummary 0)).sum =
        (((data.zip as).filter fun p => p.2 = j).map Prod.fst).sum) ∧
    (((computeClusterSummaries data as k).getD j (initSummary 0)).cluster = j) ∧
    (((computeClusterSummaries data as k).getD j (initSummary 0)).avg =
        (if 0 < ((data.zip as).filter fun p => p.2 = j).length
         then (((data.zip as).filter fun p => p.2 = j).map Prod.fst).sum /
              ((((data.zip as).filter fun p => p.2 = j).length : ℕ) : ℚ)
         else 0)) ∧
    ((computeClusterSummaries data as k).length = k) := by
  have hinit : ((List.range k).map initSummary).getD j (initSummary 0) = initSummary j :=
    getD_map_range initSummary (initSummary 0) k j hj
  have hlen0 : ((List.range k).map initSummary).length = k := by simp
  have hfold := foldl_set_getD stepSummary (initSummary 0) (data.zip as)
    ((List.range k).map initSummary)
  have hflen : ((data.zip as).foldl
      (fun acc p => acc.set p.2 (stepSummary (acc.getD p.2 (initSummary 0)) p.1))
      ((List.range k).map initSummary)).length = k := by rw [hfold.1, hlen0]
  have hgd := hfold.2 j (by rw [hlen0]; exact hj)
  rw [hinit] at hgd
  have hstep := stepSummary_foldl (((data.zip as).filter fun p => p.2 = j).map Prod.fst)
    (initSummary j)
  have hFc : ((((data.zip as).filter fun p => p.2 = j).map Prod.fst).foldl stepSummary
      (initSummary j)).count = ((data.zip as).filter fun p => p.2 = j).length := by
    rw [hstep.1]
    simp [initSummary]
  have hFs : ((((data.zip as).filter fun p => p.2 = j).map Prod.fst).foldl stepSummary
      (initSummary j)).sum = (((data.zip as).filter fun p => p.2 = j).map Prod.fst).sum := by
    rw [hstep.2.1]
    simp [initSummary]
  have hFcl : ((((data.zip as).filter fun p => p.2 = j).map Prod.fst).foldl stepSummary
      (initSummary j)).cluster = j := by
    rw [hstep.2.2]
    rfl
  have hres : (computeClusterSummaries data as k).getD j (initSummary 0)
      = (fun s => if 0 < s.count then { s with avg := s.sum / (s.count : ℚ) } else s)
          ((((data.zip as).filter fun p => p.2 = j).map Prod.fst).foldl stepSummary
            (initSummary j)) := by
    unfold computeClusterSummaries
    rw [getD_map _ _ (initSummary 0) _ j (by rw [hflen]; exact hj), hgd]
  rw [hres]
  by_cases h0 : 0 < ((((data.zip as).filter fun p => p.2 = j).map Prod.fst).foldl stepSummary
      (initSummary j)).count
  · have hgt : 0 < ((data.zip as).filter fun p => p.2 = j).length := by rw [← hFc]; exact h0
    simp only [if_pos h0]
    refine ⟨hFc, hFs, hFcl, ?_, by
      unfold computeClusterSummaries
      simp only [List.length_map]
      rw [hflen]⟩
    simp only [if_pos hgt]
    rw [hFs, hFc]
  · have hle : ¬ 0 < ((data.zip as).filter fun p => p.2 = j).length := by rw [← hFc]; exact h0
    simp only [if_neg h0]
    refine ⟨hFc, hFs, hFcl, ?_, by
      unfold computeClusterSummaries
      simp only [List.length_map]
      rw [hflen]⟩
    simp only [if_neg hle]
    have hm : (((data.zip as).filter fun p => p.2 = j).map Prod.fst) = [] := by
      have : ((data.zip as).filter fun p => p.2 = j).length = 0 := by omega
      have h2 : ((data.zip as).filter fun p => p.2 = j) = [] := List.length_eq_zero.mp this
      rw [h2]; rfl
    rw [hm]
    rfl

/-- Characterisation of the centroid update at an in-bounds position: the
mean of the samples assigned to cluster `j`, or the previous centroid when
no sample is assigned to it. -/
theorem updateCentroids_getD (data cs : List ℚ) (as : List ℕ) (k j : ℕ) (hj : j < k) :
    (updateCentroids data cs as k).getD j 0 =
      (if (((data.zip as).filter fun p => p.2 = j).map Prod.fst) = []
       then cs.getD j 0
       else (((data.zip as).filter fun p => p.2 = j).map Prod.fst).sum /
            (((((data.zip as).filter fun p => p.2 = j).map Prod.fst).length : ℕ) : ℚ)) := by
  unfold updateCentroids
  rw [getD_map_range _ _ k j hj, accumCentroids_getD data as k j hj]
  by_cases hm : (((data.zip as).filter fun p => p.2 = j).map Prod.fst) = []
  · rw [if_pos hm]
    have : (((data.zip as).filter fun p => p.2 = j).map Prod.fst).length = 0 := by
      rw [hm]; rfl
    simp only [this]
    rfl
  · rw [if_neg hm]
    have : 0 < (((data.zip as).filter fun p => p.2 = j).map Prod.fst).length :=
      List.length_pos.mpr hm
    simp only [if_pos this]

/-- The scan of the assignment loop of `runKMeans`: after folding over the
candidate indices `1..m`, the best pair holds the distance of its index,
its index is at most `m`, its distance is minimal among indices `0..m`, and
every index before it has strictly larger distance (so equal distances keep
the first minimum found). -/
theorem assignOne_fold (cs : List ℚ) (x : ℚ) : ∀ m : ℕ,
    (((List.range' 1 m).foldl
        (fun bd j =>
          let d := |x - cs.getD j 0|
          if d < bd.2 then (j, d) else bd)
        (0, |x - cs.getD 0 0|)).2 =
      dist x cs ((List.range' 1 m).foldl
        (fun bd j =>
          let d := |x - cs.getD j 0|
          if d < bd.2 then (j, d) else bd)
        (0, |x - cs.getD 0 0|)).1) ∧
    (((List.range' 1 m).foldl
        (fun bd j =>
          let d := |x - cs.getD j 0|
          if d < bd.2 then (j, d) else bd)
        (0, |x - cs.getD 0 0|)).1 ≤ m) ∧
    (∀ j : ℕ, j ≤ m →
      ((List.range' 1 m).foldl
        (fun bd j =>
          let d := |x - cs.getD j 0|
          if d < bd.2 then (j, d) else bd)
        (0, |x - cs.getD 0 0|)).2 ≤ dist x cs j) ∧
    (∀ j : ℕ, j < ((List.range' 1 m).foldl
        (fun bd j =>
          let d := |x - cs.getD j 0|
          if d < bd.2 then (j, d) else bd)
        (0, |x - cs.getD 0 0|)).1 →
      ((List.range' 1 m).foldl
        (fun bd j =>
          let d := |x - cs.getD j 0|
          if d < bd.2 then (j, d) else bd)
        (0, |x - cs.getD 0 0|)).2 < dist x cs j) := by
  intro m
  induction m with
  | zero =>
    refine ⟨rfl, le_refl _, ?_, ?_⟩
    · intro j hj
      interval_cases j
      exact le_refl _
    · intro j hj
      exact absurd hj (Nat.not_lt_zero j)
  | succ m ih =>
    obtain ⟨ih1, ih2, ih3, ih4⟩ := ih
    have hconcat : List.range' 1 (m + 1) = List.range' 1 m ++ [1 + 1 * m] :=
      List.range'_concat 1 m
    rw [hconcat, List.foldl_append]
    simp only [List.foldl_cons, List.foldl_nil]
    set r := (List.range' 1 m).foldl
        (fun bd j =>
          let d := |x - cs.getD j 0|
          if d < bd.2 then (j, d) else bd)
        (0, |x - cs.getD 0 0|) with hr
    have hm1 : 1 + 1 * m = m + 1 := by omega
    rw [hm1]
    by_cases hlt : |x - cs.getD (m + 1) 0| < r.2
    · simp only [if_pos hlt]
      refine ⟨rfl, le_refl _, ?_, ?_⟩
      · intro j hj
        rcases Nat.lt_or_ge j (m + 1) with h | h
        · have : r.2 ≤ dist x cs j := ih3 j (by omega)
          exact le_of_lt (lt_of_lt_of_le hlt this)
        · have : j = m + 1 := by omega
          rw [this]
          exact le_refl _
      · intro j hj
        have hjm : j ≤ m := by omega
        exact lt_of_lt_of_le hlt (ih3 j hjm)
    · simp only [if_neg hlt]
      refine ⟨ih1, by omega, ?_, ih4⟩
      intro j hj
      rcases Nat.lt_or_ge j (m + 1) with h | h
      · exact ih3 j (by omega)
      · have : j = m + 1 := by omega
        rw [this]
        exact le_of_not_lt (fun hcon => hlt (by
          have : dist x cs (m + 1) = |x - cs.getD (m + 1) 0| := rfl
          rw [this] at hcon
          exact hcon))

/-- Full characterisation of the assignment scan: for `0 < k`, `assignOne`
returns an index below `k` whose centroid distance is minimal, and every
smaller index has strictly larger distance. -/
theorem assignOne_spec (cs : List ℚ) (k : ℕ) (hk : 0 < k) (x : ℚ) :
    assignOne cs k x < k ∧
    (∀ j : ℕ, j < k → dist x cs (assignOne cs k x) ≤ dist x cs j) ∧
    (∀ j : ℕ, j < assignOne cs k x → dist x cs (assignOne cs k x) < dist x cs j) := by
  obtain ⟨h1, h2, h3, h4⟩ := assignOne_fold cs x (k - 1)
  have ha : assignOne cs k x = ((List.range' 1 (k - 1)).foldl
      (fun bd j =>
        let d := |x - cs.getD j 0|
        if d < bd.2 then (j, d) else bd)
      (0, |x - cs.getD 0 0|)).1 := rfl
  refine ⟨by omega, ?_, ?_⟩
  · intro j hj
    rw [ha, ← h1]
    exact h3 j (by omega)
  · intro j hj
    rw [ha, ← h1]
    exact h4 j (by rw [← ha]; exact hj)

/-- Whenever the loop of `runKMeans` is entered with fuel left, the
assignment vector it returns is a full assignment pass against some
centroid vector. -/
theorem kmeansLoop_result_assignAll (data : List ℚ) (k : ℕ) :
    ∀ (fuel : ℕ) (cs : List ℚ) (as : List ℕ), 0 < fuel →
      ∃ cs' : List ℚ, (kmeansLoop data k fuel cs as).1 = assignAll data cs' k := by
  intro fuel
  induction fuel with
  | zero => intro cs as h; exact absurd h (by omega)
  | succ n ih =>
    intro cs as _
    simp only [kmeansLoop]
    by_cases hch : assignAll data cs k ≠ as
    · rw [if_pos hch]
      rcases Nat.eq_zero_or_pos n with hn | hn
      · subst hn
        exact ⟨cs, rfl⟩
      · obtain ⟨cs', hcs'⟩ := ih (updateCentroids data cs (assignAll data cs k) k)
          (assignAll data cs k) hn
        exact ⟨cs', hcs'⟩
    · rw [if_neg hch]
      exact ⟨cs, rfl⟩

/-- The loop of `runKMeans` never executes more iterations than its fuel. -/
theorem kmeansLoop_iters_le (data : List ℚ) (k : ℕ) :
    ∀ (fuel : ℕ) (cs : List ℚ) (as : List ℕ),
      (kmeansLoop data k fuel cs as).2.2 ≤ fuel := by
  intro fuel
  induction fuel with
  | zero => intro cs as; exact le_refl 0
  | succ n ih =>
    intro cs as
    simp only [kmeansLoop]
    by_cases hch : assignAll data cs k ≠ as
    · rw [if_pos hch]
      have := ih (updateCentroids data cs (assignAll data cs k) k) (assignAll data cs k)
      show (kmeansLoop data k n _ _).2.2 + 1 ≤ n + 1
      omega
    · rw [if_neg hch]
      show 1 ≤ n + 1
      omega

/-- Splitting a list of `(sample, cluster)` pairs by cluster id over
`0..k-1` partitions it exactly when every id is below `k`. -/
theorem filter_length_sum (k : ℕ) : ∀ l : List (ℚ × ℕ), (∀ p ∈ l, p.2 < k) →
    (∑ j ∈ Finset.range k, (l.filter fun p => p.2 = j).length) = l.length := by
  intro l
  induction l with
  | nil => intro _; simp
  | cons p t ih =>
    intro h
    have hp : p.2 < k := h p (by simp)
    have ht : ∀ q ∈ t, q.2 < k := fun q hq => h q (by simp [hq])
    have hsplit : ∀ j : ℕ, ((p :: t).filter fun q => q.2 = j).length =
        (if p.2 = j then 1 else 0) + (t.filter fun q => q.2 = j).length := by
      intro j
      by_cases hpj : p.2 = j
      · simp only [List.filter_cons, hpj, decide_eq_true_eq, if_true, List.length_cons]
        omega
      · simp [List.filter_cons, hpj]
    calc (∑ j ∈ Finset.range k, ((p :: t).filter fun q => q.2 = j).length)
        = ∑ j ∈ Finset.range k,
            ((if p.2 = j then 1 else 0) + (t.filter fun q => q.2 = j).length) :=
          Finset.sum_congr rfl fun j _ => hsplit j
      _ = (∑ j ∈ Finset.range k, if p.2 = j then 1 else 0) +
            ∑ j ∈ Finset.range k, (t.filter fun q => q.2 = j).length :=
          Finset.sum_add_distrib
      _ = 1 + t.length := by
          rw [ih ht, Finset.sum_ite_eq (Finset.range k) p.2 (fun _ => 1),
            if_pos (Finset.mem_range.mpr hp)]
      _ = (p :: t).length := by simp [Nat.add_comm]

/-! ## Claims about the cluster engine -/

/-- C8: the final k-means assignment gives every sample exactly one cluster
id in `{0, 1, 2}`, and the per-cluster counts of `computeClusterSummaries`
over that assignment sum to the number of samples: the per-cluster index
sets partition the sample indices exactly. -/
theorem cluster_assignment_partition (data : List ℚ) :
    ((runKMeans data 3).1.length = data.length) ∧
    (∀ a ∈ (runKMeans data 3).1, a < 3) ∧
    ((∑ j ∈ Finset.range 3,
        ((computeClusterSummaries data (runKMeans data 3).1 3).getD j (initSummary 0)).count)
      = data.length) := by
  obtain ⟨cs', hcs'⟩ := kmeansLoop_result_assignAll data 3 10 (kmeansInit data)
    (List.replicate data.length 0) (by omega)
  have h1 : (runKMeans data 3).1 = assignAll data cs' 3 := hcs'
  have hlen : (runKMeans data 3).1.length = data.length := by
    rw [h1]; simp [assignAll]
  have hmem : ∀ a ∈ (runKMeans data 3).1, a < 3 := by
    intro a ha
    rw [h1] at ha
    obtain ⟨x, _, rfl⟩ := List.mem_map.mp ha
    exact (assignOne_spec cs' 3 (by omega) x).1
  refine ⟨hlen, hmem, ?_⟩
  have hcong : (∑ j ∈ Finset.range 3,
      ((computeClusterSummaries data (runKMeans data 3).1 3).getD j (initSummary 0)).count) =
      ∑ j ∈ Finset.range 3,
        ((data.zip (runKMeans data 3).1).filter fun p => p.2 = j).length :=
    Finset.sum_congr rfl fun j hj =>
      (computeClusterSummaries_fields data (runKMeans data 3).1 3 j (Finset.mem_range.mp hj)).1
  rw [hcong, filter_length_sum 3 (data.zip (runKMeans data 3).1)
    (fun p hp => hmem p.2 (List.of_mem_zip hp).2)]
  rw [List.length_zip, hlen, Nat.min_self]

/-- C7: `runKMeans` always terminates: the refinement loop never executes
more than 10 iterations, and a call whose assignment pass changes nothing
relative to the previous iteration returns right after that pass (with the
centroids recomputed once), regardless of remaining fuel. -/
theorem runKMeans_terminates :
    (∀ (data : List ℚ) (k : ℕ), (runKMeansFull data k).2.2 ≤ 10) ∧
    (∀ (data : List ℚ) (k fuel : ℕ) (cs : List ℚ) (as : List ℕ),
      assignAll data cs k = as →
      kmeansLoop data k (fuel + 1) cs as = (as, updateCentroids data cs as k, 1)) := by
  constructor
  · intro data k
    exact kmeansLoop_iters_le data k 10 (kmeansInit data) (List.replicate data.length 0)
  · intro data k fuel cs as h
    simp only [kmeansLoop]
    rw [if_neg (by rw [h]; exact fun hcon => hcon rfl)]
    rw [h]

/-- Witness for C7: a converged call stops after a single iteration at the
concrete input `data = [1]`, `cs = [1, 1, 1]`, `as = [0]`. -/
theorem runKMeans_terminates_witness :
    kmeansLoop [1] 3 (4 + 1) [1, 1, 1] [0] = ([0], updateCentroids [1] [1, 1, 1] [0] 3, 1) :=
  runKMeans_terminates.2 [1] 3 4 [1, 1, 1] [0]
    (by norm_num [assignAll, assignOne, List.range'])

/-- Reading an in-bounds position through `getD` is `get`. -/
theorem getD_eq_get {α : Type} (l : List α) (d : α) (i : ℕ) (h : i < l.length) :
    l.getD i d = l.get ⟨i, h⟩ := by
  rw [List.getD_eq_getElem?_getD, List.getElem?_eq_getElem h]
  rfl

/-- The head of the ascending sort of a non-empty list is a minimum of the
list. -/
theorem sortedHead_min (l : List ℚ) (h : l ≠ []) :
    (l.insertionSort (· ≤ ·)).getD 0 0 ∈ l ∧
    ∀ x ∈ l, (l.insertionSort (· ≤ ·)).getD 0 0 ≤ x := by
  have hperm := List.perm_insertionSort (· ≤ ·) l
  have hsorted := List.sorted_insertionSort (· ≤ ·) l
  cases hL : l.insertionSort (· ≤ ·) with
  | nil =>
    rw [hL] at hperm
    exact absurd (hperm.symm.eq_nil) h
  | cons a t =>
    rw [hL] at hperm hsorted
    have hmem : a ∈ l := hperm.mem_iff.mp (by simp)
    have hle : ∀ b ∈ t, a ≤ b := List.rel_of_sorted_cons hsorted
    refine ⟨hmem, fun x hx => ?_⟩
    have : x ∈ a :: t := hperm.mem_iff.mpr hx
    rcases List.mem_cons.mp this with rfl | hxt
    · exact le_refl x
    · exact hle x hxt

/-- The last element of the ascending sort of a non-empty list is a maximum
of the list. -/
theorem sortedLast_max (l : List ℚ) (h : l ≠ []) :
    (l.insertionSort (· ≤ ·)).getD (l.length - 1) 0 ∈ l ∧
    ∀ x ∈ l, x ≤ (l.insertionSort (· ≤ ·)).getD (l.length - 1) 0 := by
  have hperm := List.perm_insertionSort (· ≤ ·) l
  have hsorted := List.sorted_insertionSort (· ≤ ·) l
  have hlen : (l.insertionSort (· ≤ ·)).length = l.length := List.length_insertionSort _ l
  have hpos : 0 < l.length := List.length_pos.mpr h
  have hidx : l.length - 1 < (l.insertionSort (· ≤ ·)).length := by omega
  rw [getD_eq_get _ _ _ hidx]
  constructor
  · exact hperm.mem_iff.mp (List.get_mem _ _ hidx)
  · intro x hx
    obtain ⟨i, hi⟩ := List.mem_iff_get.mp (hperm.mem_iff.mpr hx)
    rw [← hi]
    exact hsorted.rel_get_of_le (by
      show i.1 ≤ l.length - 1
      have := i.2
      omega)

/-- C3: `runKMeans` seeds its three centroids from a sorted copy of the data
(minimum, element at the middle index, maximum); every iteration assigns
each sample to the centroid of strictly-minimal absolute distance with ties
kept at the lowest index, then recomputes each centroid as the mean of its
assigned samples while an empty cluster keeps its previous centroid; the
loop runs these two phases in this order on fuel 10. -/
theorem runKMeans_algorithm :
    (∀ (data : List ℚ) (k : ℕ),
        runKMeansFull data k =
          kmeansLoop data k 10 (kmeansInit data) (List.replicate data.length 0)) ∧
    (∀ data : List ℚ, data ≠ [] →
        kmeansInit data =
          [(data.insertionSort (· ≤ ·)).getD 0 0,
           (data.insertionSort (· ≤ ·)).getD (data.length / 2) 0,
           (data.insertionSort (· ≤ ·)).getD (data.length - 1) 0] ∧
        (kmeansInit data).getD 0 0 ∈ data ∧
        (∀ x ∈ data, (kmeansInit data).getD 0 0 ≤ x) ∧
        (kmeansInit data).getD 2 0 ∈ data ∧
        (∀ x ∈ data, x ≤ (kmeansInit data).getD 2 0)) ∧
    (∀ (cs : List ℚ) (k : ℕ), 0 < k → ∀ x : ℚ,
        assignOne cs k x < k ∧
        (∀ j : ℕ, j < k → dist x cs (assignOne cs k x) ≤ dist x cs j) ∧
        (∀ j : ℕ, j < assignOne cs k x → dist x cs (assignOne cs k x) < dist x cs j)) ∧
    (∀ (data cs : List ℚ) (as : List ℕ) (k j : ℕ), j < k →
        (updateCentroids data cs as k).getD j 0 =
          (if (((data.zip as).filter fun p => p.2 = j).map Prod.fst) = []
           then cs.getD j 0
           else (((data.zip as).filter fun p => p.2 = j).map Prod.fst).sum /
                (((((data.zip as).filter fun p => p.2 = j).map Prod.fst).length : ℕ) : ℚ))) ∧
    (∀ (data : List ℚ) (k fuel : ℕ) (cs : List ℚ) (as : List ℕ),
        kmeansLoop data k (fuel + 1) cs as =
          (if assignAll data cs k ≠ as
           then ((kmeansLoop data k fuel (updateCentroids data cs (assignAll data cs k) k)
                   (assignAll data cs k)).1,
                 (kmeansLoop data k fuel (updateCentroids data cs (assignAll data cs k) k)
                   (assignAll data cs k)).2.1,
                 (kmeansLoop data k fuel (updateCentroids data cs (assignAll data cs k) k)
                   (assignAll data cs k)).2.2 + 1)
           else (assignAll data cs k, updateCentroids data cs (assignAll data cs k) k, 1))) := by
  refine ⟨fun _ _ => rfl, ?_, fun cs k hk x => assignOne_spec cs k hk x,
    fun data cs as k j hj => updateCentroids_getD data cs as k j hj,
    fun _ _ _ _ _ => rfl⟩
  intro data h
  have hmin := sortedHead_min data h
  have hmax := sortedLast_max data h
  exact ⟨rfl, hmin.1, hmin.2, hmax.1, hmax.2⟩

/-- Witness for C3 at concrete inputs. -/
theorem runKMeans_algorithm_witness :
    (kmeansInit [3, 1, 2]).getD 0 0 ∈ ([3, 1, 2] : List ℚ) ∧
    assignOne [1, 1, 1] 3 2 < 3 ∧
    (updateCentroids [5] [7, 7, 7] [0] 3).getD 1 0 =
      (if ((([5] : List ℚ).zip [0]).filter fun p => p.2 = 1).map Prod.fst = []
       then ([7, 7, 7] : List ℚ).getD 1 0
       else (((([5] : List ℚ).zip [0]).filter fun p => p.2 = 1).map Prod.fst).sum /
            ((((([5] : List ℚ).zip [0]).filter fun p => p.2 = 1).map Prod.fst).length : ℚ)) :=
  ⟨(runKMeans_algorithm.2.1 [3, 1, 2] (by decide)).2.1,
   (runKMeans_algorithm.2.2.1 [1, 1, 1] 3 (by omega) 2).1,
   runKMeans_algorithm.2.2.2.1 [5] [7, 7, 7] [0] 3 1 (by omega)⟩


/-- C1: `labelClusters` on a 3-cluster result hands each of the labels
`Small`, `Medium`, `Large` to exactly one cluster id, ordering the ids by
ascending average; ids with equal averages keep their original (ascending
id) order, i.e. the lower id receives the earlier label. -/
theorem labelClusters_spec (s0 s1 s2 : ClusterSummary) :
    ∃ i0 i1 i2 : ℕ,
      labelClusters [s0, s1, s2] = [(i0, "Small"), (i1, "Medium"), (i2, "Large")] ∧
      [i0, i1, i2].Perm [0, 1, 2] ∧
      (([s0, s1, s2].getD i0 (initSummary 0)).avg < ([s0, s1, s2].getD i1 (initSummary 0)).avg ∨
        (([s0, s1, s2].getD i0 (initSummary 0)).avg = ([s0, s1, s2].getD i1 (initSummary 0)).avg ∧
          i0 < i1)) ∧
      (([s0, s1, s2].getD i1 (initSummary 0)).avg < ([s0, s1, s2].getD i2 (initSummary 0)).avg ∨
        (([s0, s1, s2].getD i1 (initSummary 0)).avg = ([s0, s1, s2].getD i2 (initSummary 0)).avg ∧
          i1 < i2)) := by
  have hL0 : labelClusters [s0, s1, s2] =
      [(((goSortSlice (fun p q : ℕ × ℚ => decide (p.2 < q.2))
            [(0, s0.avg), (1, s1.avg), (2, s2.avg)]).getD 0 (0, 0)).1, "Small"),
       (((goSortSlice (fun p q : ℕ × ℚ => decide (p.2 < q.2))
            [(0, s0.avg), (1, s1.avg), (2, s2.avg)]).getD 1 (0, 0)).1, "Medium"),
       (((goSortSlice (fun p q : ℕ × ℚ => decide (p.2 < q.2))
            [(0, s0.avg), (1, s1.avg), (2, s2.avg)]).getD 2 (0, 0)).1, "Large")] := rfl
  have hS : goSortSlice (fun p q : ℕ × ℚ => decide (p.2 < q.2))
        [(0, s0.avg), (1, s1.avg), (2, s2.avg)]
      = goOrderedInsert (fun p q : ℕ × ℚ => decide (p.2 < q.2)) (2, s2.avg)
          (goOrderedInsert (fun p q : ℕ × ℚ => decide (p.2 < q.2)) (1, s1.avg)
            [(0, s0.avg)]) := rfl
  by_cases h10 : s1.avg < s0.avg
  · have e1 : goOrderedInsert (fun p q : ℕ × ℚ => decide (p.2 < q.2)) (1, s1.avg)
        [(0, s0.avg)] = [(1, s1.avg), (0, s0.avg)] := by
      simp [goOrderedInsert, h10]
    by_cases h21 : s2.avg < s1.avg
    · refine ⟨2, 1, 0, ?_, by decide, Or.inl h21, Or.inl h10⟩
      have e2 : goOrderedInsert (fun p q : ℕ × ℚ => decide (p.2 < q.2)) (2, s2.avg)
          [(1, s1.avg), (0, s0.avg)] = [(2, s2.avg), (1, s1.avg), (0, s0.avg)] := by
        simp [goOrderedInsert, h21]
      rw [hL0, hS, e1, e2]
      rfl
    · by_cases h20 : s2.avg < s0.avg
      · refine ⟨1, 2, 0, ?_, by decide, ?_, Or.inl h20⟩
        · have e2 : goOrderedInsert (fun p q : ℕ × ℚ => decide (p.2 < q.2)) (2, s2.avg)
              [(1, s1.avg), (0, s0.avg)] = [(1, s1.avg), (2, s2.avg), (0, s0.avg)] := by
            simp [goOrderedInsert, h21, h20]
          rw [hL0, hS, e1, e2]
          rfl
        · show s1.avg < s2.avg ∨ (s1.avg = s2.avg ∧ 1 < 2)
          rcases (not_lt.mp h21).lt_or_eq with h | h
          · exact Or.inl h
          · exact Or.inr ⟨h, by omega⟩
      · refine ⟨1, 0, 2, ?_, by decide, Or.inl h10, ?_⟩
        · have e2 : goOrderedInsert (fun p q : ℕ × ℚ => decide (p.2 < q.2)) (2, s2.avg)
              [(1, s1.avg), (0, s0.avg)] = [(1, s1.avg), (0, s0.avg), (2, s2.avg)] := by
            simp [goOrderedInsert, h21, h20]
          rw [hL0, hS, e1, e2]
          rfl
        · show s0.avg < s2.avg ∨ (s0.avg = s2.avg ∧ 0 < 2)
          rcases (not_lt.mp h20).lt_or_eq with h | h
          · exact Or.inl h
          · exact Or.inr ⟨h, by omega⟩
  · have e1 : goOrderedInsert (fun p q : ℕ × ℚ => decide (p.2 < q.2)) (1, s1.avg)
        [(0, s0.avg)] = [(0, s0.avg), (1, s1.avg)] := by
      simp [goOrderedInsert, h10]
    by_cases h20 : s2.avg < s0.avg
    · refine ⟨2, 0, 1, ?_, by decide, Or.inl h20, ?_⟩
      · have e2 : goOrderedInsert (fun p q : ℕ × ℚ => decide (p.2 < q.2)) (2, s2.avg)
            [(0, s0.avg), (1, s1.avg)] = [(2, s2.avg), (0, s0.avg), (1, s1.avg)] := by
          simp [goOrderedInsert, h20]
        rw [hL0, hS, e1, e2]
        rfl
      · show s0.avg < s1.avg ∨ (s0.avg = s1.avg ∧ 0 < 1)
        rcases (not_lt.mp h10).lt_or_eq with h | h
        · exact Or.inl h
        · exact Or.inr ⟨h, by omega⟩
    · by_cases h21 : s2.avg < s1.avg
      · refine ⟨0, 2, 1, ?_, by decide, ?_, Or.inl h21⟩
        · have e2 : goOrderedInsert (fun p q : ℕ × ℚ => decide (p.2 < q.2)) (2, s2.avg)
              [(0, s0.avg), (1, s1.avg)] = [(0, s0.avg), (2, s2.avg), (1, s1.avg)] := by
            simp [goOrderedInsert, h20, h21]
          rw [hL0, hS, e1, e2]
          rfl
        · show s0.avg < s2.avg ∨ (s0.avg = s2.avg ∧ 0 < 2)
          rcases (not_lt.mp h20).lt_or_eq with h | h
          · exact Or.inl h
          · exact Or.inr ⟨h, by omega⟩
      · refine ⟨0, 1, 2, ?_, by decide, ?_, ?_⟩
        · have e2 : goOrderedInsert (fun p q : ℕ × ℚ => decide (p.2 < q.2)) (2, s2.avg)
              [(0, s0.avg), (1, s1.avg)] = [(0, s0.avg), (1, s1.avg), (2, s2.avg)] := by
            simp [goOrderedInsert, h20, h21]
          rw [hL0, hS, e1, e2]
          rfl
        · show s0.avg < s1.avg ∨ (s0.avg = s1.avg ∧ 0 < 1)
          rcases (not_lt.mp h10).lt_or_eq with h | h
          · exact Or.inl h
          · exact Or.inr ⟨h, by omega⟩
        · show s1.avg < s2.avg ∨ (s1.avg = s2.avg ∧ 1 < 2)
          rcases (not_lt.mp h21).lt_or_eq with h | h
          · exact Or.inl h
          · exact Or.inr ⟨h, by omega⟩

/-- One-step equation of the refinement loop. -/
theorem kmeansLoop_step (data : List ℚ) (k fuel : ℕ) (cs : List ℚ) (as : List ℕ) :
    kmeansLoop data k (fuel + 1) cs as =
      if assignAll data cs k ≠ as
      then ((kmeansLoop data k fuel (updateCentroids data cs (assignAll data cs k) k)
              (assignAll data cs k)).1,
            (kmeansLoop data k fuel (updateCentroids data cs (assignAll data cs k) k)
              (assignAll data cs k)).2.1,
            (kmeansLoop data k fuel (updateCentroids data cs (assignAll data cs k) k)
              (assignAll data cs k)).2.2 + 1)
      else (assignAll data cs k, updateCentroids data cs (assignAll data cs k) k, 1) := rfl

/-- The raw record held at position `j` of `computeClusterSummaries`:
the summary fold over the samples of cluster `j`, with the final `Avg`
pass applied. -/
theorem computeClusterSummaries_getD_eq (data : List ℚ) (as : List ℕ) (k j : ℕ) (hj : j < k) :
    (computeClusterSummaries data as k).getD j (initSummary 0)
      = (fun s => if 0 < s.count then { s with avg := s.sum / (s.count : ℚ) } else s)
          ((((data.zip as).filter fun p => p.2 = j).map Prod.fst).foldl stepSummary
            (initSummary j)) := by
  have hinit : ((List.range k).map initSummary).getD j (initSummary 0) = initSummary j :=
    getD_map_range initSummary (initSummary 0) k j hj
  have hlen0 : ((List.range k).map initSummary).length = k := by simp
  have hfold := foldl_set_getD stepSummary (initSummary 0) (data.zip as)
    ((List.range k).map initSummary)
  have hflen : ((data.zip as).foldl
      (fun acc p => acc.set p.2 (stepSummary (acc.getD p.2 (initSummary 0)) p.1))
      ((List.range k).map initSummary)).length = k := by rw [hfold.1, hlen0]
  have hgd := hfold.2 j (by rw [hlen0]; exact hj)
  rw [hinit] at hgd
  unfold computeClusterSummaries
  rw [getD_map _ _ (initSummary 0) _ j (by rw [hflen]; exact hj), hgd]

/-- `goRound` fixes `0`, the `Min` sentinel `1e9` and the `Max` sentinel `-1`. -/
theorem goRound_sentinels : goRound 0 = 0 ∧ goRound (10 ^ 9) = 10 ^ 9 ∧ goRound (-1) = -1 := by
  refine ⟨by norm_num [goRound], by norm_num [goRound], ?_⟩
  rw [goRound, if_neg (by norm_num)]
  have h : ⌈((-1 : ℚ) - 1/2)⌉ = -1 := by
    rw [show ((-1 : ℚ) - 1/2) = -(3/2) by norm_num, Int.ceil_eq_iff]
    norm_num
  rw [h]
  norm_num

/-- The entry at in-bounds position `j` of the cluster report of `main`. -/
theorem clusterResults_getD (data : List ℚ) (j : ℕ) (hj : j < 3) :
    (clusterResults data).getD j ⟨"", 0, 0, 0, (0, 0)⟩ =
      { label := (((labelClusters (computeClusterSummaries data (runKMeans data 3).1 3)).lookup
          j).getD "")
        count := ((computeClusterSummaries data (runKMeans data 3).1 3).getD j
          (initSummary 0)).count
        percentage := 100 * (((computeClusterSummaries data (runKMeans data 3).1 3).getD j
          (initSummary 0)).count : ℚ) / (data.length : ℚ)
        avg := goRound
          (if 0 < ((computeClusterSummaries data (runKMeans data 3).1 3).getD j
                (initSummary 0)).count
           then ((computeClusterSummaries data (runKMeans data 3).1 3).getD j
                  (initSummary 0)).sum /
                (((computeClusterSummaries data (runKMeans data 3).1 3).getD j
                  (initSummary 0)).count : ℚ)
           else 0)
        range := (goRound ((computeClusterSummaries data (runKMeans data 3).1 3).getD j
                    (initSummary 0)).min,
                  goRound ((computeClusterSummaries data (runKMeans data 3).1 3).getD j
                    (initSummary 0)).max) } := by
  simp only [clusterResults]
  rw [getD_map_range _ _ 3 j hj]

/-- The cluster report always contains one entry per cluster. -/
theorem clusterResults_length (data : List ℚ) : (clusterResults data).length = 3 := by
  simp [clusterResults]

/-- Concrete run of the cluster engine on `[1, 2, 3]`: the three samples
land in three distinct clusters. -/
theorem runKMeans_123 : (runKMeans [1, 2, 3] 3).1 = [0, 1, 2] := by
  have hinit : kmeansInit [1, 2, 3] = [1, 2, 3] := by
    norm_num [kmeansInit, List.insertionSort, List.orderedInsert]
  have ev2 : assignAll [1, 2, 3] [1, 2, 3] 3 = [0, 1, 2] := by
    norm_num [assignAll, assignOne, List.range']
  have ev3 : updateCentroids [1, 2, 3] [1, 2, 3] [0, 1, 2] 3 = [1, 2, 3] := by
    norm_num [updateCentroids, accumCentroids, List.zip, List.zipWith, List.foldl,
      List.replicate, List.set, List.getD_eq_getElem?_getD,
      show List.range 3 = [0, 1, 2] from rfl, List.map]
  have h9 : kmeansLoop [1, 2, 3] 3 9 [1, 2, 3] [0, 1, 2] = ([0, 1, 2], [1, 2, 3], 1) := by
    show kmeansLoop [1, 2, 3] 3 (8 + 1) [1, 2, 3] [0, 1, 2] = _
    rw [kmeansLoop_step, ev2, if_neg (by decide : ¬ (([0, 1, 2] : List ℕ) ≠ [0, 1, 2])), ev3]
  have h10 : kmeansLoop [1, 2, 3] 3 10 [1, 2, 3] [0, 0, 0] = ([0, 1, 2], [1, 2, 3], 2) := by
    show kmeansLoop [1, 2, 3] 3 (9 + 1) [1, 2, 3] [0, 0, 0] = _
    rw [kmeansLoop_step, ev2, if_pos (by decide : ([0, 1, 2] : List ℕ) ≠ [0, 0, 0]), ev3, h9]
  show (kmeansLoop [1, 2, 3] 3 10 (kmeansInit [1, 2, 3])
    (List.replicate ([1, 2, 3] : List ℚ).length 0)).1 = _
  rw [hinit, show List.replicate ([1, 2, 3] : List ℚ).length 0 = [0, 0, 0] from rfl, h10]

/-- C2 (amended): in the JSON report each cluster entry stores the
percentage exactly as `100 * count / totalFileCount` (unrounded — the
two-decimal presentation exists only in the text rendering), the `avg`
field as the cluster average rounded to the nearest integer, and the
`range` field as `[min, max]` with each endpoint rounded to the nearest
integer. -/
theorem clusterResults_report_fields (data : List ℚ) (j : ℕ) (hj : j < 3) :
    ((clusterResults data).getD j ⟨"", 0, 0, 0, (0, 0)⟩).percentage =
      100 * (((computeClusterSummaries data (runKMeans data 3).1 3).getD j
        (initSummary 0)).count : ℚ) / (data.length : ℚ) ∧
    ((clusterResults data).getD j ⟨"", 0, 0, 0, (0, 0)⟩).avg =
      goRound
        (if 0 < ((computeClusterSummaries data (runKMeans data 3).1 3).getD j
              (initSummary 0)).count
         then ((computeClusterSummaries data (runKMeans data 3).1 3).getD j
                (initSummary 0)).sum /
              (((computeClusterSummaries data (runKMeans data 3).1 3).getD j
                (initSummary 0)).count : ℚ)
         else 0) ∧
    ((clusterResults data).getD j ⟨"", 0, 0, 0, (0, 0)⟩).range =
      (goRound ((computeClusterSummaries data (runKMeans data 3).1 3).getD j
          (initSummary 0)).min,
       goRound ((computeClusterSummaries data (runKMeans data 3).1 3).getD j
          (initSummary 0)).max) := by
  rw [clusterResults_getD data j hj]
  exact ⟨rfl, rfl, rfl⟩

/-- Witness for C2 (amended) at the concrete input `[1, 2, 3]`, `j = 0`. -/
theorem clusterResults_report_fields_witness :
    ((clusterResults [1, 2, 3]).getD 0 ⟨"", 0, 0, 0, (0, 0)⟩).percentage =
      100 * (((computeClusterSummaries [1, 2, 3] (runKMeans [1, 2, 3] 3).1 3).getD 0
        (initSummary 0)).count : ℚ) / (([1, 2, 3] : List ℚ).length : ℚ) :=
  (clusterResults_report_fields [1, 2, 3] 0 (by omega)).1

/-- C2 (counterexample): on the input `[1, 2, 3]` the first cluster entry
stores percentage `100/3` exactly, while `100 * 1 / 3` rounded to two
decimals is `33.33`; the stored value is not the rounded one. -/
theorem clusterResults_percentage_counterexample :
    ((clusterResults [1, 2, 3]).getD 0 ⟨"", 0, 0, 0, (0, 0)⟩).percentage = 100 / 3 ∧
    goRound ((100 / 3 : ℚ) * 100) / 100 = 3333 / 100 ∧
    ((100 : ℚ) / 3) ≠ 3333 / 100 := by
  refine ⟨?_, by norm_num [goRound], by norm_num⟩
  rw [clusterResults_getD [1, 2, 3] 0 (by omega)]
  show 100 * (((computeClusterSummaries [1, 2, 3] (runKMeans [1, 2, 3] 3).1 3).getD 0
      (initSummary 0)).count : ℚ) / (([1, 2, 3] : List ℚ).length : ℚ) = 100 / 3
  rw [runKMeans_123,
    (computeClusterSummaries_fields [1, 2, 3] [0, 1, 2] 3 0 (by omega)).1,
    show ((([1, 2, 3] : List ℚ).zip [0, 1, 2]).filter fun p => p.2 = 0).length = 1 from by decide]
  norm_num

/-- A constant list is sorted. -/
theorem sorted_replicate (n : ℕ) (c : ℚ) : List.Sorted (· ≤ ·) (List.replicate n c) := by
  induction n with
  | zero => simp
  | succ m ih =>
    rw [List.replicate_succ]
    exact List.sorted_cons.mpr
      ⟨fun b hb => le_of_eq (List.eq_of_mem_replicate hb).symm, ih⟩

/-- On constant data, the k-means seeding produces three equal centroids. -/
theorem kmeansInit_replicate (n : ℕ) (c : ℚ) (hn : 1 ≤ n) :
    kmeansInit (List.replicate n c) = [c, c, c] := by
  have hs : (List.replicate n c).insertionSort (· ≤ ·) = List.replicate n c :=
    List.Sorted.insertionSort_eq (sorted_replicate n c)
  have hg : ∀ i : ℕ, i < n → (List.replicate n c).getD i 0 = c := fun i hi => by
    simp [List.getD_eq_getElem?_getD, List.getElem?_replicate_of_lt hi]
  simp only [kmeansInit, hs, List.length_replicate]
  rw [hg 0 (by omega), hg (n / 2) (by omega), hg (n - 1) (by omega)]

/-- When all three centroids are equal, every tie resolves to cluster 0. -/
theorem assignOne_const (c x : ℚ) : assignOne [c, c, c] 3 x = 0 := by
  show ((([1, 2] : List ℕ)).foldl
      (fun bd j =>
        let d := |x - ([c, c, c] : List ℚ).getD j 0|
        if d < bd.2 then (j, d) else bd)
      (0, |x - ([c, c, c] : List ℚ).getD 0 0|)).1 = 0
  simp [List.foldl, lt_self_iff_false]

/-- On constant data every sample goes to cluster 0 and the loop converges
in a single iteration, leaving clusters 1 and 2 empty. -/
theorem runKMeans_replicate (c : ℚ) (n : ℕ) (hn : 3 ≤ n) :
    (runKMeans (List.replicate n c) 3).1 = List.replicate n 0 := by
  have hinit := kmeansInit_replicate n c (by omega)
  have hassign : assignAll (List.replicate n c) [c, c, c] 3 = List.replicate n 0 := by
    unfold assignAll
    rw [List.map_replicate, assignOne_const]
  show (kmeansLoop (List.replicate n c) 3 (9 + 1) (kmeansInit (List.replicate n c))
      (List.replicate (List.replicate n c).length 0)).1 = _
  rw [kmeansLoop_step, hinit, List.length_replicate, hassign]
  rw [if_neg (fun h => h rfl)]

/-- C10: a cluster left empty by the final assignment (as happens when all
samples are equal, every tie resolving to cluster 0) is still reported:
its entry carries count 0, percentage 0, avg 0 and the rounded
initialisation sentinels as range `[1e9, -1]` — an inverted range whose
first component exceeds its second — rather than being omitted. -/
theorem clusterResults_empty_cluster :
    (∀ (data : List ℚ) (j : ℕ), j < 3 →
      ((computeClusterSummaries data (runKMeans data 3).1 3).getD j (initSummary 0)).count = 0 →
      (clusterResults data).length = 3 ∧
      ((clusterResults data).getD j ⟨"", 0, 0, 0, (0, 0)⟩).count = 0 ∧
      ((clusterResults data).getD j ⟨"", 0, 0, 0, (0, 0)⟩).percentage = 0 ∧
      ((clusterResults data).getD j ⟨"", 0, 0, 0, (0, 0)⟩).avg = 0 ∧
      ((clusterResults data).getD j ⟨"", 0, 0, 0, (0, 0)⟩).range = (10 ^ 9, -1) ∧
      ((clusterResults data).getD j ⟨"", 0, 0, 0, (0, 0)⟩).range.2 <
        ((clusterResults data).getD j ⟨"", 0, 0, 0, (0, 0)⟩).range.1) ∧
    (∀ (c : ℚ) (n : ℕ), 3 ≤ n →
      (runKMeans (List.replicate n c) 3).1 = List.replicate n 0) := by
  refine ⟨?_, fun c n hn => runKMeans_replicate c n hn⟩
  intro data j hj hc
  have hflen : ((data.zip (runKMeans data 3).1).filter fun p => p.2 = j).length = 0 := by
    rw [← (computeClusterSummaries_fields data (runKMeans data 3).1 3 j hj).1]
    exact hc
  have hfilter : ((data.zip (runKMeans data 3).1).filter fun p => p.2 = j) = [] :=
    List.length_eq_zero.mp hflen
  have hsummary : (computeClusterSummaries data (runKMeans data 3).1 3).getD j (initSummary 0)
      = initSummary j := by
    rw [computeClusterSummaries_getD_eq data (runKMeans data 3).1 3 j hj, hfilter]
    simp [initSummary]
  have hentry := clusterResults_getD data j hj
  rw [hsummary] at hentry
  rw [hentry]
  have hsent := goRound_sentinels
  refine ⟨clusterResults_length data, rfl, by simp [initSummary], ?_, ?_, ?_⟩
  · show goRound (if 0 < (initSummary j).count then (initSummary j).sum / ((initSummary j).count : ℚ) else 0) = 0
    rw [if_neg (by simp [initSummary])]
    exact hsent.1
  · show (goRound (initSummary j).min, goRound (initSummary j).max) = ((10 ^ 9 : ℚ), (-1 : ℚ))
    show (goRound (10 ^ 9), goRound (-1)) = _
    rw [hsent.2.1, hsent.2.2]
  · show (goRound (initSummary j).min, goRound (initSummary j).max).2 <
      (goRound (initSummary j).min, goRound (initSummary j).max).1
    show goRound (-1) < goRound (10 ^ 9)
    rw [hsent.2.1, hsent.2.2]
    norm_num

/-- Witness for C10 on the constant input `[7, 7, 7]` with the empty
cluster `j = 1`. -/
theorem clusterResults_empty_cluster_witness :
    ((clusterResults (List.replicate 3 (7 : ℚ))).getD 1 ⟨"", 0, 0, 0, (0, 0)⟩).range =
      (10 ^ 9, -1) :=
  (clusterResults_empty_cluster.1 (List.replicate 3 7) 1 (by omega) (by
    rw [runKMeans_replicate 7 3 (by omega),
      (computeClusterSummaries_fields (List.replicate 3 7) (List.replicate 3 0) 3 1
        (by omega)).1]
    decide)).2.2.2.2.1

/-- Witness for C8 at the concrete input `[1, 2, 3]`. -/
theorem cluster_assignment_partition_witness :
    (runKMeans [1, 2, 3] 3).1.length = ([1, 2, 3] : List ℚ).length ∧ (0 : ℕ) < 3 :=
  ⟨(cluster_assignment_partition [1, 2, 3]).1,
   (cluster_assignment_partition [1, 2, 3]).2.1 0 (by rw [runKMeans_123]; decide)⟩

end Codesiz
